import Mathlib

/-!
# CV-Extractor: asynchronous job lifecycle — shallow embedding

Shallow embedding of the job-lifecycle core of `src/wroker.py` (the Redis/RQ
variant of the résumé-extraction app): the submission endpoint `upload_file`,
the worker `process_resumes_job`, the polling endpoint `job_status` and the
one-time download endpoint `download_file`.

Modelling conventions:
* Python `bytes` values are modelled as `List Nat` (one `Nat` per byte).
* The Redis store is a key → (bytes, ttl) association list with the usual
  single-writer `get` / `set key value ex` / `delete *keys` operations; TTL
  values are recorded but no clock is modelled (no claim needs expiry).
* A redis-py `Pipeline` buffers commands in its `command_stack`;
  `execute` flushes the buffer to the store.  Crucially, redis-py's
  `Pipeline.__exit__` (run when a `with ... as pipe:` block is left) calls
  `reset()`, which clears `command_stack`.  The source calls `pipe.execute()`
  *after* the `with` block, so the embedding applies `reset` before `execute`,
  exactly as the interpreter does.
* The text-extraction helpers, the AI call and the spreadsheet synthesis are
  external collaborators (pdfplumber / python-docx / Gemini / openpyxl); they
  are oracles packaged in `ExtOracles`.  `extract_text_from_pdf` and
  `extract_text_from_docx` wrap their whole body in `try/except` and return
  `""` on any failure, so they are modelled as total `Bytes → String`
  functions.  `get_structured_data_from_ai` and `generate_excel_in_memory`
  are guarded by `try/except` at their call sites in the worker, so they are
  modelled as possibly raising (`PyResult`): e.g. `json.loads` may return a
  non-dict JSON value, making `ai_data['filename'] = filename` raise.
-/

namespace CVX

/-- Python `bytes`, one natural number per byte. -/
abbrev Bytes := List Nat

/-- Encoding of an ASCII string literal as bytes (`str.encode('utf-8')` for
the ASCII strings the source stores). -/
def strBytes (s : String) : Bytes := s.toList.map Char.toNat

/-- `bytes.decode('utf-8')` for the ASCII payloads the source decodes. -/
def bytesDecode (b : Bytes) : String := String.mk (b.map Char.ofNat)

/-- The error sentinel `b"error:"` used by the worker and the endpoints. -/
def errSentinel : Bytes := strBytes "error:"

/-- The Redis key/value store: entries `(key, bytes, ttl-seconds)`. -/
structure Store where
  entries : List (String × Bytes × Nat)
deriving DecidableEq

/-- First-match lookup in the entry list. -/
def lookupKey : List (String × Bytes × Nat) → String → Option Bytes
  | [], _ => none
  | e :: rest, k => if e.1 = k then some e.2.1 else lookupKey rest k

/-- Drop every entry with the given key. -/
def removeKey : List (String × Bytes × Nat) → String → List (String × Bytes × Nat)
  | [], _ => []
  | e :: rest, k => if e.1 = k then removeKey rest k else e :: removeKey rest k

/-- Drop every entry whose key occurs in `ks`. -/
def removeKeys : List (String × Bytes × Nat) → List String → List (String × Bytes × Nat)
  | [], _ => []
  | e :: rest, ks => if e.1 ∈ ks then removeKeys rest ks else e :: removeKeys rest ks

/-- `redis.get(key)` — `none` models Python `None` for a missing key. -/
def Store.get (s : Store) (k : String) : Option Bytes := lookupKey s.entries k

/-- `redis.set(key, value, ex=ttl)` — overwrites any previous entry. -/
def Store.set (s : Store) (k : String) (v : Bytes) (ttl : Nat) : Store :=
  ⟨(k, v, ttl) :: removeKey s.entries k⟩

/-- `redis.delete(*keys)`. -/
def Store.del (s : Store) (ks : List String) : Store := ⟨removeKeys s.entries ks⟩

/-- redis-py pipeline: buffered commands (here only `SET key value EX ttl`). -/
structure Pipeline where
  command_stack : List (String × Bytes × Nat)
deriving DecidableEq

/-- `pipe.set(key, value, ex=ttl)` queues the command. -/
def Pipeline.setCmd (p : Pipeline) (k : String) (v : Bytes) (ttl : Nat) : Pipeline :=
  ⟨p.command_stack ++ [(k, v, ttl)]⟩

/-- `Pipeline.reset()` — clears the buffered command stack.  This is what
redis-py's `Pipeline.__exit__` runs when a `with` block is left. -/
def Pipeline.reset (_ : Pipeline) : Pipeline := ⟨[]⟩

/-- `pipe.execute()` — flushes the buffered commands to the store, in order.
On an empty command stack this is a no-op (redis-py returns `[]` without
touching the server). -/
def Pipeline.execute (p : Pipeline) (s : Store) : Store :=
  p.command_stack.foldl (fun st c => st.set c.1 c.2.1 c.2.2) s

/-- RQ job statuses, as returned by `job.get_status()`; the source only ever
compares against `'failed'`. -/
inductive RqStatus where
  | queued
  | started
  | deferred
  | scheduled
  | finished
  | failed
deriving DecidableEq

/-- One `app.queue.enqueue('app.process_resumes_job', job_id, file_keys,
job_timeout=1800)` record. -/
structure QueueEntry where
  func : String
  job_id : String
  file_keys : List (String × String)
  job_timeout : Nat
deriving DecidableEq

/-- The JSON responses of the `POST /` submission route. -/
inductive SubmitResp where
  /-- 200 `{"success": true, "job_id": ...}` -/
  | success (job_id : String)
  /-- 400 `"No files selected."` (also covers the empty-filename case). -/
  | errNoFiles
  /-- 413 `"File '<filename>' is too large. Max 20MB."` -/
  | errTooLarge (filename : String)
  /-- 400 `"No valid .pdf or .docx files found."` -/
  | errNoValid
deriving DecidableEq

/-- Result of the submission route: HTTP response, final store, final queue. -/
structure SubmitOut where
  resp : SubmitResp
  store : Store
  queue : List QueueEntry
deriving DecidableEq

/-- Python's `str.endswith`: a suffix test on the character sequence. -/
def strEndsWith (s suffix : String) : Bool := suffix.toList.isSuffixOf s.toList

/-- `file.filename.endswith('.pdf') or file.filename.endswith('.docx')`.
(The preceding `if file` truthiness test checks for a non-empty filename,
which is subsumed: the empty string has neither suffix.) -/
def validExt (name : String) : Bool := strEndsWith name ".pdf" || strEndsWith name ".docx"

/-- The `for file in files:` loop of the submission route.  `i` counts the
accepted files so far and indexes the fresh `uuid4()` suffixes `uuidGen`;
`secureFn` models `werkzeug.utils.secure_filename`.  An oversized accepted
file aborts the request with an early 413 return, modelled as `Except.error`
carrying the offending (secured) filename. -/
def submitLoop (jobId : String) (uuidGen : Nat → String) (secureFn : String → String) :
    List (String × Bytes) → Nat → Pipeline → List (String × String) →
    Except String (Pipeline × List (String × String))
  | [], _, pipe, fks => Except.ok (pipe, fks)
  | f :: rest, i, pipe, fks =>
    if validExt f.1 then
      let filename := secureFn f.1
      if f.2.length > 20000000 then Except.error filename
      else
        submitLoop jobId uuidGen secureFn rest (i + 1)
          (pipe.setCmd ("job:" ++ jobId ++ ":file:" ++ uuidGen i) f.2 3600)
          (fks ++ [("job:" ++ jobId ++ ":file:" ++ uuidGen i, filename)])
    else submitLoop jobId uuidGen secureFn rest i pipe fks

/-- The `POST /` submission route (`upload_file` in the source), with the
fresh `job_id`, the per-file `uuid4()` suffixes and `secure_filename`
supplied as parameters.  `files` is the multipart `file` field as a list of
`(filename, bytes)` pairs (the `'file' not in request.files` 400 concerns the
shape of the HTTP request and is not representable here).

Faithful to the source, the pipelined blob writes are queued inside a
`with app.redis.pipeline() as pipe:` block but `pipe.execute()` is only
called *after* that block: leaving the block runs `Pipeline.reset`, so the
`execute` flushes an empty command stack and the store is left unchanged. -/
def upload_file (jobId : String) (uuidGen : Nat → String) (secureFn : String → String)
    (files : List (String × Bytes)) (store : Store) (queue : List QueueEntry) : SubmitOut :=
  if files.isEmpty || files.all (fun f => f.1 = "") then
    ⟨SubmitResp.errNoFiles, store, queue⟩
  else
    match submitLoop jobId uuidGen secureFn files 0 ⟨[]⟩ [] with
    | Except.error filename => ⟨SubmitResp.errTooLarge filename, store, queue⟩
    | Except.ok (pipe, file_keys) =>
      let pipeAfterWith := pipe.reset
      let store1 := pipeAfterWith.execute store
      if file_keys.isEmpty then ⟨SubmitResp.errNoValid, store1, queue⟩
      else
        ⟨SubmitResp.success jobId, store1,
          queue ++ [⟨"app.process_resumes_job", jobId, file_keys, 1800⟩]⟩

/-- A Candidate Profile as the worker manipulates it: the dict returned by
the AI call (or built in the per-file `except` clause), restricted to the
fields the lifecycle core reads or writes.  `filename` is `none` until the
worker's `ai_data['filename'] = filename` assignment; the placeholder dict
built in the `except` clause never receives a `filename` entry.  The extra
AI fields (skills/experience/education) are opaque to the lifecycle and are
not modelled. -/
structure Profile where
  name : String
  email : String
  phone : String
  summary : String
  filename : Option String
deriving DecidableEq

/-- Outcome of calling a Python function that may raise: either a value or
an escaped exception (carrying `str(e)`). -/
inductive PyResult (α : Type) where
  | ok (a : α)
  | exn (msg : String)
deriving DecidableEq

/-- The external collaborators the worker drives, as oracles.

* `extractPdf` / `extractDocx` model `extract_text_from_pdf` /
  `extract_text_from_docx`: their bodies are wrapped in `try/except` and
  return `""` on any internal failure, so they are total.
* `ai` models `get_structured_data_from_ai`; the worker guards the call with
  `try/except`, and the subsequent `ai_data['filename'] = filename` can raise
  (e.g. when `json.loads` produced a non-dict), so the oracle may raise.
* `excel` models `generate_excel_in_memory` (openpyxl), guarded by the
  worker's outermost `try/except`, so it may raise. -/
structure ExtOracles where
  extractPdf : Bytes → String
  extractDocx : Bytes → String
  ai : String → PyResult Profile
  excel : List Profile → PyResult Bytes

/-- The worker's per-file text selection (`if filename.endswith('.pdf') ...
elif filename.endswith('.docx') ...`, otherwise `text` stays `""`). -/
def extText (ext : ExtOracles) (filename : String) (b : Bytes) : String :=
  if strEndsWith filename ".pdf" then ext.extractPdf b
  else if strEndsWith filename ".docx" then ext.extractDocx b
  else ""

/-- The row (if any) one `(key, filename)` pair contributes to
`all_resume_data`:
* missing blob (`redis_conn.get` returned `None`) → the `continue` branch,
  no row;
* empty blob — Python's `if not file_bytes:` is also true for `b""` → same
  `continue` branch, no row;
* empty extracted text (`if text:` false) → no row, silently;
* non-empty text, AI call returns → that profile, tagged with the filename;
* non-empty text, an exception escapes the per-file `try` → the placeholder
  `{"name": f"Error processing {filename}", ..., "summary": str(e)}`. -/
def fileRow (ext : ExtOracles) (store : Store) (kf : String × String) : Option Profile :=
  match store.get kf.1 with
  | none => none
  | some b =>
    if b.isEmpty then none
    else
      let text := extText ext kf.2 b
      if text = "" then none
      else
        match ext.ai text with
        | PyResult.ok p => some { p with filename := some kf.2 }
        | PyResult.exn e =>
          some { name := "Error processing " ++ kf.2, email := "", phone := "",
                 summary := e, filename := none }

/-- The worker's `for key, filename in file_keys.items():` loop: returns
`(all_resume_data, file_keys_to_delete)`, both in iteration order.  A key is
appended to the delete list by the per-file `finally`, which runs exactly
when the per-file `try` was entered — i.e. when the blob was present and
non-empty (`continue` fires before the `try` otherwise). -/
def processFiles (ext : ExtOracles) (store : Store) :
    List (String × String) → List Profile × List String
  | [] => ([], [])
  | (key, filename) :: rest =>
    let tail := processFiles ext store rest
    match store.get key with
    | none => tail
    | some b =>
      if b.isEmpty then tail
      else
        let row :=
          let text := extText ext filename b
          if text = "" then none
          else
            match ext.ai text with
            | PyResult.ok p => some { p with filename := some filename }
            | PyResult.exn e =>
              some { name := "Error processing " ++ filename, email := "", phone := "",
                     summary := e, filename := none : Profile }
        (match row with
         | some p => p :: tail.1
         | none => tail.1,
         key :: tail.2)

/-- The result key `f"job:{job_id}:result"`. -/
def resultKey (jobId : String) : String := "job:" ++ jobId ++ ":result"

/-- The worker entry point `process_resumes_job(job_id, file_keys)`, as a
function from the store the worker connects to, to the store it leaves
behind:
* run the per-file loop;
* `if not all_resume_data:` → write `b"error: no data processed"` at the
  result key (TTL 3600) and return;
* otherwise synthesize the spreadsheet; write its bytes at the result key
  (TTL 3600); if an exception escapes this step, the outermost `except`
  writes `f"error: {e}"` instead;
* the `finally` clause always deletes the collected `file_keys_to_delete`. -/
def process_resumes_job (ext : ExtOracles) (jobId : String)
    (file_keys : List (String × String)) (store : Store) : Store :=
  let r := processFiles ext store file_keys
  let store1 :=
    if r.1.isEmpty then
      store.set (resultKey jobId) (strBytes "error: no data processed") 3600
    else
      match ext.excel r.1 with
      | PyResult.ok excelBytes => store.set (resultKey jobId) excelBytes 3600
      | PyResult.exn e => store.set (resultKey jobId) (strBytes ("error: " ++ e)) 3600
  store1.del r.2

/-- The JSON responses of `GET /status/<job_id>`. -/
inductive PollResp where
  | pending
  | complete (download_url : String)
  | failed (error : String)
deriving DecidableEq

/-- The `try: job = rq.Job.fetch(job_id); status = job.get_status(); ...
except: pass` fallback of the status route.  `fetch` models the RQ lookup;
`Except.error` models any exception (in particular `NoSuchJobError` for an
unknown job id), which the bare `except: pass` swallows. -/
def queueCheck (fetch : String → Except String RqStatus) (jobId : String) : PollResp :=
  match fetch jobId with
  | Except.ok s =>
    if s = RqStatus.failed then PollResp.failed "Job failed during processing."
    else PollResp.pending
  | Except.error _ => PollResp.pending

/-- `GET /status/<job_id>` (`job_status` in the source).  Note the Python
`if result:` test: a *present but empty* result value is falsy and falls
through to the queue check, exactly like a missing key. -/
def job_status (fetch : String → Except String RqStatus) (store : Store)
    (jobId : String) : PollResp :=
  match store.get (resultKey jobId) with
  | some result =>
    if result.isEmpty then queueCheck fetch jobId
    else if errSentinel.isPrefixOf result then PollResp.failed (bytesDecode result)
    else PollResp.complete ("/download/" ++ jobId)
  | none => queueCheck fetch jobId

/-- The responses of `GET /download/<job_id>`. -/
inductive RetrieveResp where
  /-- `send_file(...)` of the spreadsheet bytes. -/
  | sendFile (bytes : Bytes) (mimetype : String) (download_name : String)
  /-- `redirect(url_for('upload_file'))`. -/
  | redirectUpload
deriving DecidableEq

/-- The xlsx MIME type used by `send_file`. -/
def xlsxMime : String := "application/vnd.openxmlformats-officedocument.spreadsheetml.sheet"

/-- `GET /download/<job_id>` (`download_file` in the source): on a missing,
empty or error-marked result value, redirect to resubmission *without*
touching the store; otherwise delete the result key (one-time download) and
serve the bytes.  Returns the response together with the store it leaves. -/
def download_file (store : Store) (jobId : String) : RetrieveResp × Store :=
  match store.get (resultKey jobId) with
  | none => (RetrieveResp.redirectUpload, store)
  | some excelBytes =>
    if excelBytes.isEmpty || errSentinel.isPrefixOf excelBytes then
      (RetrieveResp.redirectUpload, store)
    else
      (RetrieveResp.sendFile excelBytes xlsxMime "AI_Resumes_Extract.xlsx",
        store.del [resultKey jobId])

/-- Whether a `(key, filename)` pair's blob is present and non-empty — i.e.
whether the worker's per-file `try` block is entered (and hence the key is
collected for deletion by the per-file `finally`). -/
def blobPresent (store : Store) (kf : String × String) : Bool :=
  match store.get kf.1 with
  | some b => !b.isEmpty
  | none => false

/-! ## Concrete fixtures used to instantiate the theorems -/

/-- Oracles for runs in which every extraction yields empty text; the AI and
spreadsheet collaborators succeed (the spreadsheet bytes `[80, 75]` are the
`PK` zip magic of an xlsx file). -/
def extNone : ExtOracles :=
  ⟨fun _ => "", fun _ => "", fun t => PyResult.ok ⟨"N", "", "", t, none⟩,
   fun _ => PyResult.ok [80, 75]⟩

/-- Oracles for which only the blob `[2]` yields text: extraction of any
other blob fails and is absorbed to `""` inside the extractor. -/
def extSecondOnly : ExtOracles :=
  ⟨fun b => if b = [2] then "parsed resume text" else "", fun _ => "",
   fun t => PyResult.ok ⟨"Alice", "alice@example.com", "1", t, none⟩,
   fun _ => PyResult.ok [80, 75]⟩

/-- An RQ lookup that raises `NoSuchJobError` for every job id. -/
def fetchNotFound : String → Except String RqStatus := fun _ => Except.error "NoSuchJobError"

/-- A store holding a finished job's result (non-error spreadsheet bytes). -/
def storeDone : Store := ⟨[("job:j:result", [80, 75], 3600)]⟩

/-- A store whose result key holds the empty byte string. -/
def storeEmptyResult : Store := ⟨[("job:g:result", [], 3600)]⟩

/-- A store holding a failed job's error record. -/
def storeFailedJob : Store := ⟨[("job:j:result", strBytes "error: boom", 3600)]⟩

/-- Two input blobs for job `J`: `[1]` (whose extraction will fail to
produce text) and `[2]` (which extracts successfully). -/
def storeTwoFiles : Store :=
  ⟨[("job:J:file:a", [1], 3600), ("job:J:file:b", [2], 3600)]⟩

/-- The input refs matching `storeTwoFiles`. -/
def fksTwoFiles : List (String × String) :=
  [("job:J:file:a", "a.pdf"), ("job:J:file:b", "b.pdf")]

/-- One input blob holding the empty byte string. -/
def storeEmptyBlob : Store := ⟨[("job:J:file:a", [], 3600)]⟩

/-- One input blob holding non-empty bytes. -/
def storeOneBlob : Store := ⟨[("job:J:file:a", [1], 3600)]⟩

/-- A single-file input-ref list for job `J`. -/
def fksOneFile : List (String × String) := [("job:J:file:a", "a.pdf")]

/-- One good input blob for job `J` under key `job:J:file:b`. -/
def storeOneGoodBlob : Store := ⟨[("job:J:file:b", [2], 3600)]⟩

/-- The input refs matching `storeOneGoodBlob`. -/
def fksOneGoodFile : List (String × String) := [("job:J:file:b", "b.pdf")]

/-! ## Basic store lemmas -/

theorem lookup_removeKey (es : List (String × Bytes × Nat)) (k0 k : String) :
    lookupKey (removeKey es k0) k = if k0 = k then none else lookupKey es k := by
  induction es with
  | nil => simp [removeKey, lookupKey]
  | cons e rest ih =>
    by_cases he : e.1 = k0
    · by_cases hk : k0 = k
      · subst hk
        simp [removeKey, lookupKey, he, ih]
      · have hek : ¬ e.1 = k := fun h => hk (he ▸ h)
        simp [removeKey, lookupKey, he, hk, hek, ih]
    · by_cases hek : e.1 = k
      · have hk : ¬ k0 = k := fun h => he (by rw [hek, h])
        have hk' : ¬ k = k0 := fun h => hk h.symm
        simp [removeKey, lookupKey, he, hek, hk, hk']
      · simp [removeKey, lookupKey, he, hek, ih]

theorem lookup_removeKeys (es : List (String × Bytes × Nat)) (ks : List String) (k : String) :
    lookupKey (removeKeys es ks) k = if k ∈ ks then none else lookupKey es k := by
  induction es with
  | nil => simp [removeKeys, lookupKey]
  | cons e rest ih =>
    by_cases he : e.1 ∈ ks
    · by_cases hek : e.1 = k
      · have hkk : k ∈ ks := hek ▸ he
        simp [removeKeys, lookupKey, he, hek, hkk, ih]
      · simp [removeKeys, lookupKey, he, hek, ih]
    · by_cases hek : e.1 = k
      · have hkk : k ∉ ks := fun h => he (hek ▸ h)
        simp [removeKeys, lookupKey, he, hek, hkk]
      · simp [removeKeys, lookupKey, he, hek, ih]

theorem Store.get_set (s : Store) (k : String) (v : Bytes) (ttl : Nat) (k' : String) :
    (s.set k v ttl).get k' = if k = k' then some v else s.get k' := by
  show lookupKey ((k, v, ttl) :: removeKey s.entries k) k' = _
  by_cases hk : k = k'
  · simp [lookupKey, hk]
  · simp [lookupKey, hk, lookup_removeKey, Store.get]

theorem Store.get_del (s : Store) (ks : List String) (k : String) :
    (s.del ks).get k = if k ∈ ks then none else s.get k := by
  show lookupKey (removeKeys s.entries ks) k = _
  exact lookup_removeKeys s.entries ks k

/-! ## The worker's per-file loop, characterized -/

/-- The rows accumulated by the worker's loop are exactly `fileRow` of each
file in iteration order. -/
theorem processFiles_fst (ext : ExtOracles) (store : Store) (fks : List (String × String)) :
    (processFiles ext store fks).1 = fks.filterMap (fileRow ext store) := by
  induction fks with
  | nil => rfl
  | cons kf rest ih =>
    obtain ⟨key, filename⟩ := kf
    simp only [processFiles, List.filterMap_cons]
    cases hg : store.get key with
    | none => simp [fileRow, hg, ih]
    | some b =>
      by_cases hb : b.isEmpty
      · simp [fileRow, hg, hb, ih]
      · by_cases ht : extText ext filename b = ""
        · simp [fileRow, hg, hb, ht, ih]
        · cases hai : ext.ai (extText ext filename b) with
          | ok p => simp [fileRow, hg, hb, ht, hai, ih]
          | exn e => simp [fileRow, hg, hb, ht, hai, ih]

/-- The delete list collected by the worker's loop is exactly the keys whose
blob was present and non-empty, in iteration order. -/
theorem processFiles_snd (ext : ExtOracles) (store : Store) (fks : List (String × String)) :
    (processFiles ext store fks).2 = (fks.filter (blobPresent store)).map Prod.fst := by
  induction fks with
  | nil => rfl
  | cons kf rest ih =>
    obtain ⟨key, filename⟩ := kf
    simp only [processFiles]
    cases hg : store.get key with
    | none => simp [blobPresent, hg, ih, List.filter_cons]
    | some b =>
      by_cases hb : b.isEmpty
      · simp [blobPresent, hg, hb, ih, List.filter_cons]
      · cases hrow : (if extText ext filename b = "" then none
          else match ext.ai (extText ext filename b) with
            | PyResult.ok p => some { p with filename := some filename }
            | PyResult.exn e =>
              some { name := "Error processing " ++ filename, email := "", phone := "",
                     summary := e, filename := none : Profile }) with
        | none => simp [blobPresent, hg, hb, ih, List.filter_cons, hrow]
        | some p => simp [blobPresent, hg, hb, ih, List.filter_cons, hrow]

/-- Keys in the delete list all come from the job's `file_keys`. -/
theorem processFiles_snd_subset (ext : ExtOracles) (store : Store)
    (fks : List (String × String)) (k : String)
    (h : k ∈ (processFiles ext store fks).2) : k ∈ fks.map Prod.fst := by
  rw [processFiles_snd] at h
  obtain ⟨kf, hmem, rfl⟩ := List.mem_map.mp h
  exact List.mem_map.mpr ⟨kf, (List.mem_filter.mp hmem).1, rfl⟩

/-- The error sentinel is non-empty, so any value it prefixes is non-empty
(and in particular truthy in Python). -/
theorem isEmpty_false_of_sentinel {c : Bytes} (h : errSentinel.isPrefixOf c = true) :
    c.isEmpty = false := by
  cases c with
  | nil => exact absurd h (by decide)
  | cons a l => rfl

/-- The value the worker leaves at the result key: the `no data` error marker
when zero rows were accumulated, otherwise the spreadsheet bytes, or the
outer-`except` error marker when spreadsheet synthesis raised.  Requires that
no input key collides with the result key (true of the source's key scheme:
`job:{id}:file:{uuid}` vs `job:{id}:result`). -/
theorem worker_result_get (ext : ExtOracles) (jobId : String)
    (fks : List (String × String)) (store : Store)
    (hnk : ∀ kf ∈ fks, kf.1 ≠ resultKey jobId) :
    (process_resumes_job ext jobId fks store).get (resultKey jobId)
      = (if (fks.filterMap (fileRow ext store)).isEmpty then
          some (strBytes "error: no data processed")
        else
          match ext.excel (fks.filterMap (fileRow ext store)) with
          | PyResult.ok excelBytes => some excelBytes
          | PyResult.exn e => some (strBytes ("error: " ++ e))) := by
  have hnm : resultKey jobId ∉ (processFiles ext store fks).2 := by
    intro hmem
    obtain ⟨kf, hkf, heq⟩ := List.mem_map.mp (processFiles_snd_subset ext store fks _ hmem)
    exact hnk kf hkf heq
  simp only [process_resumes_job]
  rw [Store.get_del, if_neg hnm, processFiles_fst]
  by_cases hz : (fks.filterMap (fileRow ext store)).isEmpty
  · simp [hz, Store.get_set]
  · cases hx : ext.excel (fks.filterMap (fileRow ext store)) with
    | ok xb => simp [hz, hx, Store.get_set]
    | exn e => simp [hz, hx, Store.get_set]

/-- Any input key whose blob was present and non-empty is unreadable after
the worker run: the per-file `finally` collected it, and the outer `finally`
deleted it. -/
theorem worker_input_deleted (ext : ExtOracles) (jobId : String)
    (fks : List (String × String)) (store : Store) (kf : String × String) (b : Bytes)
    (hmem : kf ∈ fks) (hget : store.get kf.1 = some b) (hb : b.isEmpty = false) :
    (process_resumes_job ext jobId fks store).get kf.1 = none := by
  have hd : kf.1 ∈ (processFiles ext store fks).2 := by
    rw [processFiles_snd]
    refine List.mem_map.mpr ⟨kf, List.mem_filter.mpr ⟨hmem, ?_⟩, rfl⟩
    simp [blobPresent, hget, hb]
  simp only [process_resumes_job]
  rw [Store.get_del, if_pos hd]

/-! ## Submission-loop lemmas -/

/-- A filename with an accepted extension is non-empty. -/
theorem validExt_ne_empty {n : String} (h : validExt n = true) : ¬ n = "" := by
  intro he
  subst he
  exact absurd h (by decide)

/-- When no file has an accepted extension, the loop accepts nothing. -/
theorem submitLoop_all_invalid (jobId : String) (uuidGen : Nat → String)
    (secureFn : String → String) :
    ∀ files : List (String × Bytes), (∀ f ∈ files, validExt f.1 = false) →
      ∀ i pipe fks, submitLoop jobId uuidGen secureFn files i pipe fks = Except.ok (pipe, fks) := by
  intro files
  induction files with
  | nil => intro _ i pipe fks; rfl
  | cons f rest ih =>
    intro h i pipe fks
    have hf : validExt f.1 = false := h f (List.mem_cons_self f rest)
    simp only [submitLoop, hf, Bool.false_eq_true, if_false]
    exact ih (fun g hg => h g (List.mem_cons_of_mem f hg)) i pipe fks

/-- When every accepted file is within the size ceiling, the loop succeeds
and accepts exactly the files with a valid extension, in order, tagging each
with its secured filename. -/
theorem submitLoop_all_fit (jobId : String) (uuidGen : Nat → String)
    (secureFn : String → String) :
    ∀ files : List (String × Bytes),
      (∀ f ∈ files, validExt f.1 = true → f.2.length ≤ 20000000) →
      ∀ i pipe fks, ∃ pipeF fksNew,
        submitLoop jobId uuidGen secureFn files i pipe fks = Except.ok (pipeF, fks ++ fksNew) ∧
        fksNew.map Prod.snd
          = (files.filter (fun f => validExt f.1)).map (fun f => secureFn f.1) := by
  intro files
  induction files with
  | nil =>
    intro _ i pipe fks
    exact ⟨pipe, [], by simp [submitLoop], by simp⟩
  | cons f rest ih =>
    intro hsz i pipe fks
    by_cases hf : validExt f.1 = true
    · have hle := hsz f (List.mem_cons_self f rest) hf
      have hnot : ¬ f.2.length > 20000000 := by omega
      obtain ⟨pipeF, fksNew, heq, hmap⟩ :=
        ih (fun g hg hv => hsz g (List.mem_cons_of_mem f hg) hv) (i + 1)
          (pipe.setCmd ("job:" ++ jobId ++ ":file:" ++ uuidGen i) f.2 3600)
          (fks ++ [("job:" ++ jobId ++ ":file:" ++ uuidGen i, secureFn f.1)])
      refine ⟨pipeF, ("job:" ++ jobId ++ ":file:" ++ uuidGen i, secureFn f.1) :: fksNew, ?_, ?_⟩
      · simp only [submitLoop, hf, if_true, hnot, if_false]
        rw [heq]
        simp
      · simp [List.filter_cons, hf, hmap]
    · obtain ⟨pipeF, fksNew, heq, hmap⟩ :=
        ih (fun g hg hv => hsz g (List.mem_cons_of_mem f hg) hv) i pipe fks
      refine ⟨pipeF, fksNew, ?_, ?_⟩
      · simpa [submitLoop, hf] using heq
      · simp [List.filter_cons, hf, hmap]

/-- When some accepted file exceeds the size ceiling, the loop aborts with
the early 413 return. -/
theorem submitLoop_oversized (jobId : String) (uuidGen : Nat → String)
    (secureFn : String → String) :
    ∀ files : List (String × Bytes),
      (∃ f ∈ files, validExt f.1 = true ∧ f.2.length > 20000000) →
      ∀ i pipe fks, ∃ fn,
        submitLoop jobId uuidGen secureFn files i pipe fks = Except.error fn := by
  intro files
  induction files with
  | nil => intro h; simp at h
  | cons f rest ih =>
    intro h i pipe fks
    by_cases hf : validExt f.1 = true
    · by_cases hbig : f.2.length > 20000000
      · exact ⟨secureFn f.1, by simp [submitLoop, hf, hbig]⟩
      · have hrest : ∃ g ∈ rest, validExt g.1 = true ∧ g.2.length > 20000000 := by
          obtain ⟨g, hg, hv, hb⟩ := h
          rcases List.mem_cons.mp hg with rfl | hg'
          · exact absurd hb hbig
          · exact ⟨g, hg', hv, hb⟩
        obtain ⟨fn, hfn⟩ := ih hrest (i + 1)
          (pipe.setCmd ("job:" ++ jobId ++ ":file:" ++ uuidGen i) f.2 3600)
          (fks ++ [("job:" ++ jobId ++ ":file:" ++ uuidGen i, secureFn f.1)])
        refine ⟨fn, ?_⟩
        simp only [submitLoop, hf, if_true, hbig, if_false]
        exact hfn
      -- note: the i / pipe / fks arguments above must match the recursive call
    · have hrest : ∃ g ∈ rest, validExt g.1 = true ∧ g.2.length > 20000000 := by
        obtain ⟨g, hg, hv, hb⟩ := h
        rcases List.mem_cons.mp hg with rfl | hg'
        · exact absurd hv (by simpa using hf)
        · exact ⟨g, hg', hv, hb⟩
      obtain ⟨fn, hfn⟩ := ih hrest i pipe fks
      refine ⟨fn, ?_⟩
      simpa [submitLoop, hf] using hfn

/-! ## Claims -/

/-- **C1** (code-bug demonstration).  The claim says every accepted file's
bytes are readable from the store under its `job:{job_id}:file:{random}` key
after Submit returns.  On a submission with one accepted file the route does
return success with the fresh job id and does enqueue exactly one queue entry
carrying `(job_id, input_refs)` — but the store is left completely unchanged
and the enqueued blob key reads back as absent: the source calls
`pipe.execute()` only *after* the `with app.redis.pipeline() as pipe:` block,
whose exit has already reset the pipeline's command stack, so the buffered
blob `SET`s are never issued. -/
theorem C1_blob_writes_discarded :
    (upload_file "J" (fun _ => "R0") id [("resume.pdf", [1, 2, 3])] ⟨[]⟩ []).resp
        = SubmitResp.success "J" ∧
    (upload_file "J" (fun _ => "R0") id [("resume.pdf", [1, 2, 3])] ⟨[]⟩ []).queue
        = [⟨"app.process_resumes_job", "J", [("job:J:file:R0", "resume.pdf")], 1800⟩] ∧
    (upload_file "J" (fun _ => "R0") id [("resume.pdf", [1, 2, 3])] ⟨[]⟩ []).store
        = ⟨[]⟩ ∧
    (upload_file "J" (fun _ => "R0") id [("resume.pdf", [1, 2, 3])] ⟨[]⟩ []).store.get
        "job:J:file:R0" = none :=
  ⟨by decide, by decide, by decide, by decide⟩

/-- **C2**.  Retrieve is at-most-once for successful results: when the result
key holds a non-empty, non-error artifact, the first Retrieve serves the
bytes and deletes the result key in the same retrieval, so a second Retrieve
of the same job id finds the key absent and redirects to resubmission. -/
theorem C2_retrieve_at_most_once (store : Store) (jobId : String) (c : Bytes)
    (hget : store.get (resultKey jobId) = some c)
    (hne : c.isEmpty = false)
    (herr : errSentinel.isPrefixOf c = false) :
    (download_file store jobId).1
        = RetrieveResp.sendFile c xlsxMime "AI_Resumes_Extract.xlsx" ∧
    (download_file store jobId).2.get (resultKey jobId) = none ∧
    (download_file (download_file store jobId).2 jobId).1
        = RetrieveResp.redirectUpload := by
  have h1 : download_file store jobId
      = (RetrieveResp.sendFile c xlsxMime "AI_Resumes_Extract.xlsx",
          store.del [resultKey jobId]) := by
    simp only [download_file]
    rw [hget]
    simp [hne, herr]
  have h2 : (store.del [resultKey jobId]).get (resultKey jobId) = none := by
    rw [Store.get_del]
    simp
  refine ⟨by rw [h1], by rw [h1]; exact h2, ?_⟩
  rw [h1]
  simp only [download_file]
  rw [h2]

/-- **C2 witness**: the at-most-once theorem at a concrete finished job. -/
theorem C2_retrieve_at_most_once_witness :
    (download_file storeDone "j").1
        = RetrieveResp.sendFile [80, 75] xlsxMime "AI_Resumes_Extract.xlsx" ∧
    (download_file storeDone "j").2.get (resultKey "j") = none ∧
    (download_file (download_file storeDone "j").2 "j").1
        = RetrieveResp.redirectUpload :=
  C2_retrieve_at_most_once storeDone "j" [80, 75] (by decide) (by decide) (by decide)

/-- **C3 counterexample**.  The claim says a present result key whose content
does not start with the error sentinel yields `complete`.  A result key
holding the empty byte string is present and sentinel-free, yet Poll falls
through the Python-falsy `if result:` test to the queue check and reports
`pending`. -/
theorem C3_empty_result_reports_pending :
    storeEmptyResult.get (resultKey "g") = some [] ∧
    errSentinel.isPrefixOf ([] : Bytes) = false ∧
    job_status fetchNotFound storeEmptyResult "g" = PollResp.pending :=
  ⟨by decide, by decide, by decide⟩

/-- **C3 (amended)**.  Poll's full state machine, with "present" read as
"present with non-empty content": non-empty sentinel-free content →
`complete` with the retrieval reference; sentinel-prefixed content →
`failed` with the decoded error text; key absent (or its value empty) →
`failed` exactly when the queue introspection reports `failed`, and
`pending` otherwise — in particular when the queue lookup raises because the
job record cannot be found. -/
theorem C3_poll_state_machine (fetch : String → Except String RqStatus)
    (store : Store) (jobId : String) :
    (∀ c, store.get (resultKey jobId) = some c → c.isEmpty = false →
        errSentinel.isPrefixOf c = false →
        job_status fetch store jobId = PollResp.complete ("/download/" ++ jobId)) ∧
    (∀ c, store.get (resultKey jobId) = some c → errSentinel.isPrefixOf c = true →
        job_status fetch store jobId = PollResp.failed (bytesDecode c)) ∧
    ((store.get (resultKey jobId) = none ∨ store.get (resultKey jobId) = some []) →
        fetch jobId = Except.ok RqStatus.failed →
        job_status fetch store jobId = PollResp.failed "Job failed during processing.") ∧
    ((store.get (resultKey jobId) = none ∨ store.get (resultKey jobId) = some []) →
        (∀ s, fetch jobId = Except.ok s → s ≠ RqStatus.failed) →
        job_status fetch store jobId = PollResp.pending) := by
  refine ⟨?_, ?_, ?_, ?_⟩
  · intro c hget hne herr
    simp only [job_status]
    rw [hget]
    simp [hne, herr]
  · intro c hget herr
    have hne := isEmpty_false_of_sentinel herr
    simp only [job_status]
    rw [hget]
    simp [hne, herr]
  · rintro (hget | hget) hfail <;>
      (simp only [job_status]; rw [hget]; simp [queueCheck, hfail])
  · rintro (hget | hget) hok <;>
      (cases hf : fetch jobId with
        | ok s =>
          have hs := hok s hf
          simp only [job_status]
          rw [hget]
          simp [queueCheck, hf, hs]
        | error e =>
          simp only [job_status]
          rw [hget]
          simp [queueCheck, hf])

/-- **C3 witness**: the amended state machine exercised at a concrete
finished job (case `complete`) and at a concrete unknown job (case
`pending`). -/
theorem C3_poll_state_machine_witness :
    job_status fetchNotFound storeDone "j" = PollResp.complete ("/download/" ++ "j") ∧
    job_status fetchNotFound (⟨[]⟩ : Store) "nope" = PollResp.pending :=
  ⟨(C3_poll_state_machine fetchNotFound storeDone "j").1 [80, 75]
      (by decide) (by decide) (by decide),
   (C3_poll_state_machine fetchNotFound (⟨[]⟩ : Store) "nope").2.2.2
      (Or.inl (by decide)) (fun s hs => by simp [fetchNotFound] at hs)⟩

/-- **C4 counterexample**.  The claim says the final artifact contains one
row per submitted file — never fewer.  In a two-file job whose first file's
extraction fails (the extractor absorbs the error and returns empty text,
so `if text:` is false), that file contributes no row and no placeholder:
the job completes with 1 row for 2 submitted files. -/
theorem C4_failed_extraction_drops_row :
    fksTwoFiles.length = 2 ∧
    (processFiles extSecondOnly storeTwoFiles fksTwoFiles).1.length = 1 ∧
    job_status fetchNotFound
        (process_resumes_job extSecondOnly "J" fksTwoFiles storeTwoFiles) "J"
      = PollResp.complete ("/download/" ++ "J") :=
  ⟨by decide, by decide, by decide⟩

/-- **C4 (amended)**.  Failures that *raise* inside the per-file step are
absorbed as placeholder rows and the batch continues: the accumulated rows
are exactly `fileRow` of each file (profile on success, error placeholder on
an escaped exception) — but a file whose blob is missing or empty, or whose
extracted text is empty (extraction failures are absorbed to empty text
inside the extractors), is skipped without any row, so the artifact can have
fewer rows than files submitted.  A job with at least one row whose
spreadsheet synthesis succeeds still reaches `complete`. -/
theorem C4_rows_and_completion (ext : ExtOracles) (store : Store) (jobId : String)
    (fks : List (String × String)) (fetch : String → Except String RqStatus) (xb : Bytes)
    (hnk : ∀ kf ∈ fks, kf.1 ≠ resultKey jobId)
    (hrows : (fks.filterMap (fileRow ext store)).isEmpty = false)
    (hexcel : ext.excel (fks.filterMap (fileRow ext store)) = PyResult.ok xb)
    (hxb1 : xb.isEmpty = false) (hxb2 : errSentinel.isPrefixOf xb = false) :
    (processFiles ext store fks).1 = fks.filterMap (fileRow ext store) ∧
    (process_resumes_job ext jobId fks store).get (resultKey jobId) = some xb ∧
    job_status fetch (process_resumes_job ext jobId fks store) jobId
        = PollResp.complete ("/download/" ++ jobId) := by
  have h2 : (process_resumes_job ext jobId fks store).get (resultKey jobId) = some xb := by
    rw [worker_result_get ext jobId fks store hnk]
    simp [hrows, hexcel]
  refine ⟨processFiles_fst ext store fks, h2, ?_⟩
  simp only [job_status]
  rw [h2]
  simp [hxb1, hxb2]

/-- **C4 witness**: the amended theorem at a concrete one-file job whose file
extracts successfully. -/
theorem C4_rows_and_completion_witness :
    (processFiles extSecondOnly storeOneGoodBlob fksOneGoodFile).1
        = fksOneGoodFile.filterMap (fileRow extSecondOnly storeOneGoodBlob) ∧
    (process_resumes_job extSecondOnly "J" fksOneGoodFile storeOneGoodBlob).get (resultKey "J")
        = some [80, 75] ∧
    job_status fetchNotFound
        (process_resumes_job extSecondOnly "J" fksOneGoodFile storeOneGoodBlob) "J"
        = PollResp.complete ("/download/" ++ "J") :=
  C4_rows_and_completion extSecondOnly storeOneGoodBlob "J" fksOneGoodFile fetchNotFound
    [80, 75] (by decide) (by decide) (by decide) (by decide) (by decide)

/-- **C5 counterexample**.  The claim says that after any worker run none of
the job's input blob keys remain readable.  An input blob holding the empty
byte string is treated as missing by the worker's Python-falsy
`if not file_bytes:` test, fires `continue` before the per-file `try`, is
never collected for deletion — and remains readable after the run. -/
theorem C5_empty_blob_survives_run :
    (process_resumes_job extNone "J" fksOneFile storeEmptyBlob).get "job:J:file:a"
      = some [] :=
  by decide

/-- **C5 (amended)**.  After any worker run the result key is present (the
success artifact, the zero-rows error record, or the outer-`except` error
record), and every input blob key whose blob was present and *non-empty* is
deleted; an input key whose blob is absent or empty is skipped by the
`continue` branch and left alone (an empty blob stays readable until its TTL
expires). -/
theorem C5_cleanup_and_result (ext : ExtOracles) (store : Store) (jobId : String)
    (fks : List (String × String))
    (hnk : ∀ kf ∈ fks, kf.1 ≠ resultKey jobId) :
    ((process_resumes_job ext jobId fks store).get (resultKey jobId)).isSome = true ∧
    (∀ kf ∈ fks, ∀ b, store.get kf.1 = some b → b.isEmpty = false →
        (process_resumes_job ext jobId fks store).get kf.1 = none) := by
  constructor
  · rw [worker_result_get ext jobId fks store hnk]
    by_cases hz : (fks.filterMap (fileRow ext store)).isEmpty
    · simp [hz]
    · cases hx : ext.excel (fks.filterMap (fileRow ext store)) with
      | ok xb => simp [hz, hx]
      | exn e => simp [hz, hx]
  · intro kf hmem b hget hb
    exact worker_input_deleted ext jobId fks store kf b hmem hget hb

/-- **C5 witness**: the amended theorem at a concrete one-file job with a
present non-empty blob: the result key exists and the blob is gone. -/
theorem C5_cleanup_and_result_witness :
    ((process_resumes_job extNone "J" fksOneFile storeOneBlob).get (resultKey "J")).isSome
        = true ∧
    (∀ kf ∈ fksOneFile, ∀ b, storeOneBlob.get kf.1 = some b → b.isEmpty = false →
        (process_resumes_job extNone "J" fksOneFile storeOneBlob).get kf.1 = none) :=
  C5_cleanup_and_result extNone storeOneBlob "J" fksOneFile (by decide)

/-- **C6**.  A job that produced zero rows (every file's blob was missing or
empty, or its extracted text was empty) gets the `no data` error record at
its result key — no empty spreadsheet is written — and Poll reports `failed`
with that error text, never `complete`. -/
theorem C6_zero_profiles_reports_failed (ext : ExtOracles) (store : Store)
    (jobId : String) (fks : List (String × String))
    (fetch : String → Except String RqStatus)
    (hnk : ∀ kf ∈ fks, kf.1 ≠ resultKey jobId)
    (hzero : fks.filterMap (fileRow ext store) = []) :
    (process_resumes_job ext jobId fks store).get (resultKey jobId)
        = some (strBytes "error: no data processed") ∧
    job_status fetch (process_resumes_job ext jobId fks store) jobId
        = PollResp.failed "error: no data processed" := by
  have h2 : (process_resumes_job ext jobId fks store).get (resultKey jobId)
      = some (strBytes "error: no data processed") := by
    rw [worker_result_get ext jobId fks store hnk]
    simp [hzero]
  refine ⟨h2, ?_⟩
  simp only [job_status]
  rw [h2]
  have hne : (strBytes "error: no data processed").isEmpty = false := by decide
  have hpre : errSentinel.isPrefixOf (strBytes "error: no data processed") = true := by decide
  have hdec : bytesDecode (strBytes "error: no data processed")
      = "error: no data processed" := by decide
  simp [hne, hpre, hdec]

/-- **C6 witness**: a concrete one-file job whose only blob is missing from
the store produces zero rows and polls as `failed`. -/
theorem C6_zero_profiles_reports_failed_witness :
    (process_resumes_job extNone "J" fksOneFile ⟨[]⟩).get (resultKey "J")
        = some (strBytes "error: no data processed") ∧
    job_status fetchNotFound (process_resumes_job extNone "J" fksOneFile ⟨[]⟩) "J"
        = PollResp.failed "error: no data processed" :=
  C6_zero_profiles_reports_failed extNone ⟨[]⟩ "J" fksOneFile fetchNotFound
    (by decide) (by decide)

/-- A batch containing a file with an accepted extension passes the
`No files selected` guard (the file list is non-empty and not all filenames
are empty). -/
theorem guard_false_of_valid_mem {files : List (String × Bytes)} {f0 : String × Bytes}
    (hf0 : f0 ∈ files) (hv0 : validExt f0.1 = true) :
    (files.isEmpty || files.all fun f => f.1 = "") = false := by
  have h1 : files.isEmpty = false := by
    cases files with
    | nil => cases hf0
    | cons a l => rfl
  have h2 : (files.all fun f => f.1 = "") = false := by
    cases hall : files.all fun f => f.1 = ""
    · rfl
    · have := List.all_eq_true.mp hall f0 hf0
      exact absurd (of_decide_eq_true this) (validExt_ne_empty hv0)
  simp [h1, h2]

/-- **C7**.  Submit filters by extension and keeps the rest of the batch: a
submission with at least one accepted-extension file (and no oversized
accepted file) succeeds and enqueues exactly one entry whose input refs
cover exactly the accepted files, in order, under their secured filenames;
a submission in which no file has an accepted extension fails with one of
the two 400 validation errors and creates nothing — the store and the queue
are unchanged. -/
theorem C7_extension_filtering (jobId : String) (uuidGen : Nat → String)
    (secureFn : String → String) (files : List (String × Bytes)) (store : Store)
    (queue : List QueueEntry) :
    ((∃ f ∈ files, validExt f.1 = true) →
      (∀ f ∈ files, validExt f.1 = true → f.2.length ≤ 20000000) →
      (upload_file jobId uuidGen secureFn files store queue).resp
          = SubmitResp.success jobId ∧
      ∃ fks, (upload_file jobId uuidGen secureFn files store queue).queue
            = queue ++ [⟨"app.process_resumes_job", jobId, fks, 1800⟩] ∧
          fks.map Prod.snd
            = (files.filter (fun f => validExt f.1)).map (fun f => secureFn f.1)) ∧
    ((∀ f ∈ files, validExt f.1 = false) →
      ((upload_file jobId uuidGen secureFn files store queue).resp = SubmitResp.errNoValid ∨
        (upload_file jobId uuidGen secureFn files store queue).resp = SubmitResp.errNoFiles) ∧
      (upload_file jobId uuidGen secureFn files store queue).store = store ∧
      (upload_file jobId uuidGen secureFn files store queue).queue = queue) := by
  constructor
  · intro hex hsz
    obtain ⟨f0, hf0, hv0⟩ := hex
    have hguard := guard_false_of_valid_mem hf0 hv0
    obtain ⟨pipeF, fksNew, heq, hmap⟩ :=
      submitLoop_all_fit jobId uuidGen secureFn files hsz 0 ⟨[]⟩ []
    have hne : fksNew.isEmpty = false := by
      have hmem : secureFn f0.1 ∈ fksNew.map Prod.snd := by
        rw [hmap]
        exact List.mem_map.mpr ⟨f0, List.mem_filter.mpr ⟨hf0, hv0⟩, rfl⟩
      cases fksNew with
      | nil => simp at hmem
      | cons a l => rfl
    have hres : upload_file jobId uuidGen secureFn files store queue
        = ⟨SubmitResp.success jobId, store,
           queue ++ [⟨"app.process_resumes_job", jobId, fksNew, 1800⟩]⟩ := by
      simp only [upload_file, hguard]
      rw [heq]
      simp [hne, Pipeline.reset, Pipeline.execute]
    exact ⟨by rw [hres], ⟨fksNew, by rw [hres], hmap⟩⟩
  · intro hinv
    by_cases hguard : (files.isEmpty || files.all fun f => f.1 = "") = true
    · have hres : upload_file jobId uuidGen secureFn files store queue
          = ⟨SubmitResp.errNoFiles, store, queue⟩ := by
        simp [upload_file, hguard]
      exact ⟨Or.inr (by rw [hres]), by rw [hres], by rw [hres]⟩
    · have hloop := submitLoop_all_invalid jobId uuidGen secureFn files hinv 0 ⟨[]⟩ []
      have hres : upload_file jobId uuidGen secureFn files store queue
          = ⟨SubmitResp.errNoValid, store, queue⟩ := by
        simp only [upload_file, hguard]
        rw [hloop]
        simp [Pipeline.reset, Pipeline.execute]
      exact ⟨Or.inl (by rw [hres]), by rw [hres], by rw [hres]⟩

/-- **C7 witness**: the mixed batch `resume.txt` + `resume.pdf` creates a job
covering only `resume.pdf`; the batch holding only `resume.txt` is rejected
with a validation error and creates nothing. -/
theorem C7_extension_filtering_witness :
    ((upload_file "J" (fun _ => "R") id [("resume.txt", [1]), ("resume.pdf", [2])]
        ⟨[]⟩ []).resp = SubmitResp.success "J" ∧
      ∃ fks, (upload_file "J" (fun _ => "R") id [("resume.txt", [1]), ("resume.pdf", [2])]
            ⟨[]⟩ []).queue
          = [] ++ [⟨"app.process_resumes_job", "J", fks, 1800⟩] ∧
        fks.map Prod.snd
          = (([("resume.txt", [1]), ("resume.pdf", [2])] : List (String × Bytes)).filter
              (fun f => validExt f.1)).map (fun f => id f.1)) ∧
    (((upload_file "J" (fun _ => "R") id [("resume.txt", ([1] : Bytes))] ⟨[]⟩ []).resp
          = SubmitResp.errNoValid ∨
        (upload_file "J" (fun _ => "R") id [("resume.txt", ([1] : Bytes))] ⟨[]⟩ []).resp
          = SubmitResp.errNoFiles) ∧
      (upload_file "J" (fun _ => "R") id [("resume.txt", ([1] : Bytes))] ⟨[]⟩ []).store
          = ⟨[]⟩ ∧
      (upload_file "J" (fun _ => "R") id [("resume.txt", ([1] : Bytes))] ⟨[]⟩ []).queue
          = []) :=
  ⟨(C7_extension_filtering "J" (fun _ => "R") id
      [("resume.txt", [1]), ("resume.pdf", [2])] ⟨[]⟩ []).1
      (by decide) (by decide),
   (C7_extension_filtering "J" (fun _ => "R") id
      [("resume.txt", [1])] ⟨[]⟩ []).2 (by decide)⟩

/-- **C8 counterexample**.  The claim says any submission containing a file
over the 20MB ceiling fails with PayloadTooLarge.  The size check is only
reached for files that pass the extension check first, so a 25MB `.txt`
alongside a small `.pdf` is silently skipped and the submission succeeds. -/
theorem C8_oversized_invalid_ext_accepted :
    (List.replicate 25000001 (0 : Nat)).length > 20000000 ∧
    (upload_file "J" (fun _ => "R") id
        [("big.txt", List.replicate 25000001 0), ("ok.pdf", [1, 2, 3])] ⟨[]⟩ []).resp
      = SubmitResp.success "J" :=
  ⟨by rw [List.length_replicate]; norm_num, by rfl⟩

/-- **C8 (amended)**.  For every submission containing an *accepted-extension*
(`.pdf`/`.docx`) file whose size exceeds the 20MB ceiling, Submit fails with
the 413 PayloadTooLarge error naming an offending file: no job id is
returned, and no partial job is left behind — the store and the queue are
unchanged. -/
theorem C8_size_ceiling (jobId : String) (uuidGen : Nat → String)
    (secureFn : String → String) (files : List (String × Bytes)) (store : Store)
    (queue : List QueueEntry)
    (hbig : ∃ f ∈ files, validExt f.1 = true ∧ f.2.length > 20000000) :
    (∃ fn, (upload_file jobId uuidGen secureFn files store queue).resp
        = SubmitResp.errTooLarge fn) ∧
    (upload_file jobId uuidGen secureFn files store queue).store = store ∧
    (upload_file jobId uuidGen secureFn files store queue).queue = queue := by
  obtain ⟨f0, hf0, hv0, hb0⟩ := hbig
  have hguard := guard_false_of_valid_mem hf0 hv0
  obtain ⟨fn, hfn⟩ :=
    submitLoop_oversized jobId uuidGen secureFn files ⟨f0, hf0, hv0, hb0⟩ 0 ⟨[]⟩ []
  have hres : upload_file jobId uuidGen secureFn files store queue
      = ⟨SubmitResp.errTooLarge fn, store, queue⟩ := by
    simp only [upload_file, hguard]
    rw [hfn]
    simp
  exact ⟨⟨fn, by rw [hres]⟩, by rw [hres], by rw [hres]⟩

/-- **C8 witness**: a single 20MB+1-byte `.pdf` yields the 413 error and
leaves the store and queue untouched. -/
theorem C8_size_ceiling_witness :
    (∃ fn, (upload_file "J" (fun _ => "R") id
        [("a.pdf", List.replicate 20000001 0)] ⟨[]⟩ []).resp
        = SubmitResp.errTooLarge fn) ∧
    (upload_file "J" (fun _ => "R") id
        [("a.pdf", List.replicate 20000001 0)] ⟨[]⟩ []).store = ⟨[]⟩ ∧
    (upload_file "J" (fun _ => "R") id
        [("a.pdf", List.replicate 20000001 0)] ⟨[]⟩ []).queue = [] :=
  C8_size_ceiling "J" (fun _ => "R") id [("a.pdf", List.replicate 20000001 0)] ⟨[]⟩ []
    ⟨("a.pdf", List.replicate 20000001 0), List.mem_singleton.mpr rfl, by decide,
      by show (List.replicate 20000001 (0 : Nat)).length > 20000000
         rw [List.length_replicate]
         norm_num⟩

/-- **C9**.  Retrieve on a failed job leaves the store unchanged: when the
result key holds an error-marker record, the download redirects without
deleting anything, and a subsequent Poll still reports `failed` with the
decoded error text. -/
theorem C9_failed_result_not_consumed (fetch : String → Except String RqStatus)
    (store : Store) (jobId : String) (c : Bytes)
    (hget : store.get (resultKey jobId) = some c)
    (hpre : errSentinel.isPrefixOf c = true) :
    (download_file store jobId).1 = RetrieveResp.redirectUpload ∧
    (download_file store jobId).2 = store ∧
    job_status fetch (download_file store jobId).2 jobId
        = PollResp.failed (bytesDecode c) := by
  have h1 : download_file store jobId = (RetrieveResp.redirectUpload, store) := by
    simp only [download_file]
    rw [hget]
    simp [hpre]
  have hne := isEmpty_false_of_sentinel hpre
  refine ⟨by rw [h1], by rw [h1], ?_⟩
  rw [h1]
  simp only [job_status]
  rw [hget]
  simp [hne, hpre]

/-- **C9 witness**: a concrete failed job (`error: boom`) survives a
Retrieve and still polls as `failed`. -/
theorem C9_failed_result_not_consumed_witness :
    (download_file storeFailedJob "j").1 = RetrieveResp.redirectUpload ∧
    (download_file storeFailedJob "j").2 = storeFailedJob ∧
    job_status fetchNotFound (download_file storeFailedJob "j").2 "j"
        = PollResp.failed (bytesDecode (strBytes "error: boom")) :=
  C9_failed_result_not_consumed fetchNotFound storeFailedJob "j"
    (strBytes "error: boom") (by decide) (by decide)

/-- **C10**.  Poll is total over arbitrary job identifiers: it always returns
one of the three well-formed statuses; when the result key is absent, any
exception from the queue's job-record lookup is swallowed and reported as
`pending`; and an unknown job id (lookup raises) is indistinguishable from an
in-flight one (lookup returns a non-failed status) — both report `pending`. -/
theorem C10_poll_total (fetch : String → Except String RqStatus) (store : Store)
    (jobId : String) :
    (job_status fetch store jobId = PollResp.pending ∨
      (∃ u, job_status fetch store jobId = PollResp.complete u) ∨
      (∃ e, job_status fetch store jobId = PollResp.failed e)) ∧
    (store.get (resultKey jobId) = none →
      ∀ e, fetch jobId = Except.error e →
        job_status fetch store jobId = PollResp.pending) ∧
    (store.get (resultKey jobId) = none →
      ∀ e s, s ≠ RqStatus.failed →
        job_status (fun _ => Except.error e) store jobId
            = job_status (fun _ => Except.ok s) store jobId ∧
        job_status (fun _ => Except.error e) store jobId = PollResp.pending) := by
  refine ⟨?_, ?_, ?_⟩
  · cases h : job_status fetch store jobId with
    | pending => exact Or.inl rfl
    | complete u => exact Or.inr (Or.inl ⟨u, rfl⟩)
    | failed e => exact Or.inr (Or.inr ⟨e, rfl⟩)
  · intro hget e hf
    simp only [job_status]
    rw [hget]
    simp [queueCheck, hf]
  · intro hget e s hs
    constructor <;>
      (simp only [job_status]; rw [hget]; simp [queueCheck, hs])

/-- **C10 witness**: a never-created job id polls as `pending`, and an
unknown job is indistinguishable from an in-flight (`started`) one. -/
theorem C10_poll_total_witness :
    job_status fetchNotFound (⟨[]⟩ : Store) "ghost" = PollResp.pending ∧
    job_status (fun _ => Except.error "NoSuchJobError") (⟨[]⟩ : Store) "ghost"
        = job_status (fun _ => Except.ok RqStatus.started) (⟨[]⟩ : Store) "ghost" :=
  ⟨(C10_poll_total fetchNotFound (⟨[]⟩ : Store) "ghost").2.1 (by decide)
      "NoSuchJobError" rfl,
   ((C10_poll_total fetchNotFound (⟨[]⟩ : Store) "ghost").2.2 (by decide)
      "NoSuchJobError" RqStatus.started (by decide)).1⟩

end CVX
